import Mathlib

/-!
Shallow embedding of the IR graph core of
`Sources/x10/xla_tensor/ir.h` (namespace `swift_xla::ir`).

The header declares the data model (`Output`, `Value`, `OpKind`, `Node`,
`NodeCast`, `ScopePusher`); several member bodies (the `Node` constructors,
`AddOperand`, `GetOpShape`, `GetOpHash`, `shape(size_t)`, the scope stack)
live in a `ir.cpp` translation unit that is not part of the sources, and are
modelled from the specification where so indicated.
-/

namespace SwiftXla

/-- Model of the external `xla::Shape`: either an array shape (element type
and dimensions) or a tuple of shapes (used for multi-output nodes). -/
inductive Shape where
  | arr (dtype : Nat) (dims : List Nat)
  | tuple (elems : List Shape)

/-- `xla::Shape::IsTuple()`. -/
def Shape.isTuple : Shape → Bool
  | .tuple _ => true
  | .arr _ _ => false

/-- Modelled from the spec: `xla::hash_t` together with the combiner used by
`Node::GetOpHash` and the cumulative hash (their bodies live in `ir.cpp`,
absent from the sources). Spec §4.3 prescribes
`own_hash = combine(seed, operation_identity, shape)` and
`cumulative_hash = combine(own_hash, cumulative_hash(operand_0), ...)` in
operand order, and §9 leaves the combiner itself unspecified beyond being
deterministic and order-sensitive; the combiner is therefore modelled freely,
as the two constructors below. -/
inductive HashT where
  | ownH (seed : Nat) (op : Nat) (shape : Shape)
  | cumul (own : HashT) (operandHashes : List HashT)

/-- `swift_xla::ir::OpKind`: an interned `c10::Symbol`, modelled as its
unique id (`c10::unique_t`); equality and ordering are by that id. -/
structure OpKind where
  op : Nat
deriving DecidableEq, Repr

/-- `swift_xla::ir::Output`: a non-owning handle `(const Node* node, size_t
index)`.  The `const Node*` is modelled as the address of the producing node
(`none` models `nullptr`). -/
structure Output where
  node : Option Nat
  index : Nat
deriving DecidableEq, Repr

/-- `Output() = default`: `node = nullptr`, `index = 0`. -/
def Output.mkDefault : Output := ⟨none, 0⟩

/-- `Output::operator==`: `node == rhs.node && index == rhs.index`
(pointer identity on the producing node, plus the output index). -/
def Output.beqOp (a b : Output) : Bool :=
  decide (a.node = b.node) && decide (a.index = b.index)

/-- `Output::operator!=`: `!operator==(rhs)`. -/
def Output.bneOp (a b : Output) : Bool := ! Output.beqOp a b

/-- `swift_xla::ir::Value`: an owning handle `(NodePtr node, size_t index)`.
The `std::shared_ptr<Node>` is modelled as the address of the owned node
(`none` models the null pointer). -/
structure Value where
  node : Option Nat
  index : Nat
deriving DecidableEq, Repr

/-- `Value() = default`: null `shared_ptr`, `index = 0`. -/
def Value.mkDefault : Value := ⟨none, 0⟩

/-- `Value::operator bool()`: `node != nullptr`. -/
def Value.toBool (v : Value) : Bool := v.node.isSome

/-- `Value::operator Output()`: `Output(node.get(), index)` — drops
ownership, keeping the same node address and index. -/
def Value.toOutput (v : Value) : Output := ⟨v.node, v.index⟩

/-- `swift_xla::ir::MetaData`: diagnostic metadata attached to a node —
the recorded scope path and captured source frames (`SourceLocation`
modelled as a string). -/
structure MetaData where
  scope : String
  frame_info : List String
deriving DecidableEq, Repr

/-- Modelled from the spec: the scope stack driven by `ScopePusher`
(its constructor/destructor bodies live in `ir.cpp`, absent from the
sources).  `ScopePusher(name)` pushes a scope name. -/
def pushScope (st : List String) (name : String) : List String := st ++ [name]

/-- Modelled from the spec: `~ScopePusher()` pops the innermost scope. -/
def popScope (st : List String) : List String := st.dropLast

/-- Modelled from the spec: `ScopePusher::ResetScopes()` clears the stack
unconditionally. -/
def resetScopes (_st : List String) : List String := []

/-- Modelled from the spec: the concatenated active scope path recorded in a
new node's metadata while the given scope stack is active. -/
def currentScope (st : List String) : String := String.intercalate "." st

/-- `swift_xla::ir::Node`: one record per constructed node.  Fields mirror
the private members of `class Node` (`ir.h` lines 227-241).  `operands_`
holds the owned `NodePtr`s (modelled as node addresses, `none` for a null
`shared_ptr`); `operands_as_outputs_` holds the mirrored non-owning
`Output`s.  `dynTag` models the dynamic (most-derived) C++ type of the
object as consulted by `dynamic_cast`: `0` for a plain base `Node`,
other values for operation-specific subclasses. -/
structure NodeRec where
  op_ : OpKind
  num_outputs_ : Nat
  shape_ : Shape
  operands_ : List (Option Nat)
  operands_as_outputs_ : List Output
  node_hash_ : HashT
  hash_ : HashT
  metadata_ : MetaData
  dynTag : Nat

/-- Modelled from the spec: `Node::GetOpHash(op, shape, hash_seed)` (declared
`ir.h` line 224, body in `ir.cpp`): `own_hash = combine(seed,
operation_identity, shape)`. -/
def getOpHash (op : OpKind) (shape : Shape) (seed : Nat) : HashT :=
  .ownH seed op.op shape

/-- Modelled from the spec: the cumulative hash `operand.hash()` contributed
by an operand `Value` — the cumulative hash of its producing node, read
through the environment `env` mapping node addresses to the cumulative hash
stored at that address.  A null operand contributes a fixed default. -/
def valueHash (env : Nat → HashT) (v : Value) : HashT :=
  match v.node with
  | some a => env a
  | none => .ownH 0 0 (.tuple [])

/-- Modelled from the spec: the `Node` constructor (`ir.h` lines 166-167,
body in `ir.cpp`).  Given the ambient scope stack and source frames, it
stores the operation, output count and shape, captures each operand `Value`
into the owned list `operands_` while mirroring it as a non-owning `Output`
in `operands_as_outputs_` (spec §2: "stores its operands as owned
references … and mirrors them as non-owning OutputRefs"), computes
`node_hash_ = GetOpHash(op, shape, seed)` and the cumulative
`hash_ = combine(node_hash_, operand hashes in operand order)`, and records
the concatenated scope path in the diagnostic metadata. -/
def mkNode (env : Nat → HashT) (op : OpKind) (operands : List Value)
    (shape : Shape) (numOutputs : Nat) (seed : Nat)
    (scopes : List String) (frames : List String) : NodeRec :=
  { op_ := op
    num_outputs_ := numOutputs
    shape_ := shape
    operands_ := operands.map Value.node
    operands_as_outputs_ := operands.map Value.toOutput
    node_hash_ := getOpHash op shape seed
    hash_ := HashT.cumul (getOpHash op shape seed) (operands.map (valueHash env))
    metadata_ := ⟨currentScope scopes, frames⟩
    dynTag := 0 }

/-- `Node::operand(size_t i)` (`ir.h` line 199):
`operands_as_outputs_.at(i)`.  `std::vector::at` throws `std::out_of_range`
for `i >= size()`, modelled as `none`. -/
def NodeRec.operand (n : NodeRec) (i : Nat) : Option Output :=
  n.operands_as_outputs_.get? i

/-- `Node::operands()` (`ir.h` lines 191-193): returns
`operands_as_outputs_`. -/
def NodeRec.operands (n : NodeRec) : List Output := n.operands_as_outputs_

/-- `Node::operand_nodes()` (`ir.h` lines 195-197): returns `operands_`. -/
def NodeRec.operand_nodes (n : NodeRec) : List (Option Nat) := n.operands_

/-- `Node::shape()` (`ir.h` line 185): the full shape (a tuple for a
multi-output node). -/
def NodeRec.shape (n : NodeRec) : Shape := n.shape_

/-- Modelled from the spec: `Node::shape(size_t output_index)` (declared
`ir.h` line 189, body in `ir.cpp`).  Spec §4.3: fails with an out-of-range
condition if `output_index ≥ output_count`, or if the node is not
multi-output and `output_index ≠ 0`; on a multi-output node a valid index
selects that component of the tuple shape.  Failure is modelled as `none`. -/
def NodeRec.shapeAt (n : NodeRec) (i : Nat) : Option Shape :=
  if n.num_outputs_ ≤ i then none
  else
    match n.shape_ with
    | .tuple comps => comps.get? i
    | s => if i = 0 then some s else none

/-- Result of `NodeCast<T>` (`ir.h` lines 267-279): a null pointer, a typed
pointer viewing the node as `T`, or the failure of
`dynamic_cast<const T&>(*node)` (`std::bad_cast`) when the node's dynamic
type is not `T`. -/
inductive CastResult where
  | null
  | view (n : NodeRec)
  | badCast

/-- Does the cast accept, i.e. produce a usable typed view? -/
def castAccepts : CastResult → Bool
  | .view _ => true
  | _ => false

/-- `NodeCast<T>(node, op)` as compiled without `NDEBUG` (`ir.h` lines
268-279, checked branch): `nullptr` if `op != node->op()`, else
`dynamic_cast<const T&>(*node)` — a typed view when the node's dynamic type
is `T` (tag `t`), and `std::bad_cast` otherwise. -/
def nodeCastChecked (t : Nat) (n : NodeRec) (op : OpKind) : CastResult :=
  if op ≠ n.op_ then .null
  else if n.dynTag = t then .view n else .badCast

/-- `NodeCast<T>(node, op)` as compiled with `NDEBUG` (`ir.h` lines 268-279,
`static_cast` branch): `nullptr` if `op != node->op()`, else an unchecked
reinterpretation of the node as `T`. -/
def nodeCastUnchecked (_t : Nat) (n : NodeRec) (op : OpKind) : CastResult :=
  if op ≠ n.op_ then .null else .view n

/-- Modelled from the spec: the deferred-shape mechanism behind the
shape-function `Node` constructor (`ir.h` lines 171-172) and
`Node::GetOpShape` (line 222), whose bodies live in `ir.cpp`.  Spec §4.3:
the shape function "is invoked at most once, lazily, the first time the
shape is requested or needed for hashing; the result is memoized".  `cache`
is the memo cell, `calls` counts how many times `fn` has been invoked. -/
structure LazyShape where
  fn : Unit → Shape
  cache : Option Shape
  calls : Nat

/-- The state of a node's deferred shape right after construction: nothing
computed yet. -/
def LazyShape.init (fn : Unit → Shape) : LazyShape := ⟨fn, none, 0⟩

/-- One shape request (`shape()` call or hash computation forcing the
shape): returns the memoized shape if present, otherwise invokes `fn`
once and stores the result. -/
def LazyShape.force (c : LazyShape) : Shape × LazyShape :=
  match c.cache with
  | some s => (s, c)
  | none => (c.fn (), ⟨c.fn, some (c.fn ()), c.calls + 1⟩)

/-- `k` successive shape requests against the same node. -/
def LazyShape.forceN : Nat → LazyShape → LazyShape
  | 0, c => c
  | k + 1, c => LazyShape.forceN k (LazyShape.force c).2

/-! ## Theorems -/

/-- Claim C3: `operand(i)` fails with an out-of-range condition (modelled as
`none`, for the `std::out_of_range` thrown by `operands_as_outputs_.at(i)`)
exactly when `i ≥ operands.size()`; for `i < operands.size()` it returns the
non-owning `Output` handle stored at position `i`. -/
theorem operand_out_of_range_fails (n : NodeRec) (i : Nat) :
    (NodeRec.operand n i = none ↔ n.operands_as_outputs_.length ≤ i)
    ∧ ∀ h : i < n.operands_as_outputs_.length,
        NodeRec.operand n i = some (n.operands_as_outputs_.get ⟨i, h⟩) := by
  refine ⟨?_, ?_⟩
  · simp [NodeRec.operand, List.get?_eq_none]
  · intro h
    simp [NodeRec.operand, List.get?_eq_get h]

theorem operand_out_of_range_fails_witness :
    NodeRec.operand
        (mkNode (fun a => HashT.ownH a 0 (.tuple [])) ⟨3⟩ [⟨some 1, 0⟩]
          (.arr 0 []) 1 0 [] []) 0 = some ⟨some 1, 0⟩
    ∧ NodeRec.operand
        (mkNode (fun a => HashT.ownH a 0 (.tuple [])) ⟨3⟩ [⟨some 1, 0⟩]
          (.arr 0 []) 1 0 [] []) 2 = none := by
  constructor
  · exact (operand_out_of_range_fails
      (mkNode (fun a => HashT.ownH a 0 (.tuple [])) ⟨3⟩ [⟨some 1, 0⟩]
        (.arr 0 []) 1 0 [] []) 0).2 (by decide)
  · exact (operand_out_of_range_fails
      (mkNode (fun a => HashT.ownH a 0 (.tuple [])) ⟨3⟩ [⟨some 1, 0⟩]
        (.arr 0 []) 1 0 [] []) 2).1.mpr (by decide)

/-- Claim C8: equality of output handles is structural.  `Output::operator==`
compares producing-node identity (pointer equality) and output index; two
`Value`s, observed through their conversion to `Output` (the only comparison
the code defines), likewise compare equal iff the owned node address and the
index agree. -/
theorem output_equality_structural :
    (∀ a b : Output, Output.beqOp a b = true ↔ a.node = b.node ∧ a.index = b.index)
    ∧ (∀ a b : Output, Output.bneOp a b = true ↔ ¬(a.node = b.node ∧ a.index = b.index))
    ∧ ∀ v w : Value,
        Output.beqOp (Value.toOutput v) (Value.toOutput w) = true
          ↔ v.node = w.node ∧ v.index = w.index := by
  refine ⟨?_, ?_, ?_⟩
  · intro a b; simp [Output.beqOp]
  · intro a b
    simp [Output.bneOp, Output.beqOp, Classical.not_and_iff_or_not_not, imp_iff_not_or]
  · intro v w; simp [Output.beqOp, Value.toOutput]

/-- Claim C10: a `Value` is default-constructible with a null producing node;
its boolean conversion is true iff the owned node pointer is non-null; and
its implicit conversion to `Output` keeps the same node address
(`node.get()`) and index, also in the empty case. -/
theorem value_empty_bool_output_conversion :
    Value.mkDefault.node = none ∧ Value.mkDefault.index = 0
    ∧ (∀ v : Value, Value.toBool v = true ↔ v.node ≠ none)
    ∧ (∀ v : Value, (Value.toOutput v).node = v.node ∧ (Value.toOutput v).index = v.index)
    ∧ (Value.toOutput Value.mkDefault).node = none := by
  refine ⟨rfl, rfl, ?_, ?_, rfl⟩
  · intro v; simp [Value.toBool, Option.isSome_iff_ne_none]
  · intro v; exact ⟨rfl, rfl⟩

/-- Claim C6: `NodeCast<T>(node, op)` returns a null result exactly when `op`
differs from the node's operation kind — in both build modes, so the kind
mismatch is a defined, recoverable outcome — and returns a typed view over
the node when the kinds are equal (for the checked, `dynamic_cast` variant
this additionally uses the operation-kind-as-type-tag discipline: a node
whose kind matches carries dynamic type `T`). -/
theorem nodeCast_kind_gated (t : Nat) (n : NodeRec) (op : OpKind) :
    (nodeCastChecked t n op = .null ↔ op ≠ n.op_)
    ∧ (nodeCastUnchecked t n op = .null ↔ op ≠ n.op_)
    ∧ (op = n.op_ → nodeCastUnchecked t n op = .view n)
    ∧ (op = n.op_ → n.dynTag = t → nodeCastChecked t n op = .view n) := by
  by_cases h : op = n.op_
  · refine ⟨?_, ?_, fun _ => ?_, fun _ ht => ?_⟩
    · simp only [nodeCastChecked, h]
      by_cases ht : n.dynTag = t <;> simp [ht]
    · simp [nodeCastUnchecked, h]
    · simp [nodeCastUnchecked, h]
    · simp [nodeCastChecked, h, ht]
  · refine ⟨?_, ?_, fun hc => absurd hc h, fun hc => absurd hc h⟩
    · simp [nodeCastChecked, h]
    · simp [nodeCastUnchecked, h]

theorem nodeCast_kind_gated_witness :
    (nodeCastChecked 0
        (mkNode (fun a => HashT.ownH a 0 (.tuple [])) ⟨5⟩ [] (.arr 0 []) 1 0 [] [])
        ⟨6⟩ = .null)
    ∧ (nodeCastChecked 0
        (mkNode (fun a => HashT.ownH a 0 (.tuple [])) ⟨5⟩ [] (.arr 0 []) 1 0 [] [])
        ⟨5⟩ = .view
          (mkNode (fun a => HashT.ownH a 0 (.tuple [])) ⟨5⟩ [] (.arr 0 []) 1 0 [] [])) := by
  constructor
  · exact (nodeCast_kind_gated 0
      (mkNode (fun a => HashT.ownH a 0 (.tuple [])) ⟨5⟩ [] (.arr 0 []) 1 0 [] [])
      ⟨6⟩).1.mpr (by decide)
  · exact (nodeCast_kind_gated 0
      (mkNode (fun a => HashT.ownH a 0 (.tuple [])) ⟨5⟩ [] (.arr 0 []) 1 0 [] [])
      ⟨5⟩).2.2.2 (by decide) (by rfl)

/-- Claim C7 is false as stated: on a node whose operation kind matches the
expected kind but whose dynamic type is not `T` (here: a plain base `Node`,
`dynTag = 0`, cast to a subclass tag `1`), the optimized (`static_cast`)
variant accepts while the non-optimized (`dynamic_cast`) variant does not
(it raises `std::bad_cast`): the two build modes disagree. -/
theorem nodeCast_build_modes_disagree_counterexample :
    castAccepts (nodeCastUnchecked 1
        (mkNode (fun a => HashT.ownH a 0 (.tuple [])) ⟨7⟩ [] (.arr 0 []) 1 0 [] [])
        ⟨7⟩) = true
    ∧ castAccepts (nodeCastChecked 1
        (mkNode (fun a => HashT.ownH a 0 (.tuple [])) ⟨7⟩ [] (.arr 0 []) 1 0 [] [])
        ⟨7⟩) = false := by
  constructor <;> rfl

/-- Claim C7, amended: whenever the operation-kind-as-type-tag discipline
holds for the input — if the node's kind equals the expected kind then the
node's dynamic type is `T` — the checked (`dynamic_cast`) and unchecked
(`static_cast`) variants of `NodeCast` return identical results, so the two
build modes accept exactly the same inputs. -/
theorem nodeCast_build_modes_agree_under_discipline (t : Nat) (n : NodeRec)
    (op : OpKind) (hdisc : op = n.op_ → n.dynTag = t) :
    nodeCastChecked t n op = nodeCastUnchecked t n op := by
  by_cases h : op = n.op_
  · simp [nodeCastChecked, nodeCastUnchecked, h, hdisc h]
  · simp [nodeCastChecked, nodeCastUnchecked, h]

theorem nodeCast_build_modes_agree_under_discipline_witness :
    nodeCastChecked 0
        (mkNode (fun a => HashT.ownH a 0 (.tuple [])) ⟨7⟩ [] (.arr 0 []) 1 0 [] [])
        ⟨7⟩
      = nodeCastUnchecked 0
        (mkNode (fun a => HashT.ownH a 0 (.tuple [])) ⟨7⟩ [] (.arr 0 []) 1 0 [] [])
        ⟨7⟩ :=
  nodeCast_build_modes_agree_under_discipline 0
    (mkNode (fun a => HashT.ownH a 0 (.tuple [])) ⟨7⟩ [] (.arr 0 []) 1 0 [] [])
    ⟨7⟩ (fun _ => by rfl)

/-- Claim C2: after construction, the owned operand list `operands_` and
the mirrored non-owning list `operands_as_outputs_` have identical length;
the `i`-th non-owning entry carries the same producing-node address as the
`i`-th owned entry and the output index of the `i`-th captured operand
`Value`; and both lists are derived point-wise from the constructor's
operand list (so neither is ever mutated independently: nodes are immutable
records after `mkNode`). -/
theorem operands_mirror_correspondence (env : Nat → HashT) (op : OpKind)
    (ops : List Value) (shape : Shape) (numOutputs seed : Nat)
    (scopes frames : List String) :
    (mkNode env op ops shape numOutputs seed scopes frames).operands_as_outputs_.length
      = (mkNode env op ops shape numOutputs seed scopes frames).operands_.length
    ∧ (∀ i, ((mkNode env op ops shape numOutputs seed scopes frames).operands_as_outputs_.get? i).map Output.node
        = (mkNode env op ops shape numOutputs seed scopes frames).operands_.get? i)
    ∧ (∀ i, ((mkNode env op ops shape numOutputs seed scopes frames).operands_as_outputs_.get? i).map Output.index
        = (ops.get? i).map Value.index)
    ∧ (mkNode env op ops shape numOutputs seed scopes frames).operands_ = ops.map Value.node
    ∧ (mkNode env op ops shape numOutputs seed scopes frames).operands_as_outputs_
        = ops.map Value.toOutput := by
  refine ⟨by simp [mkNode], ?_, ?_, rfl, rfl⟩
  · intro i
    simp only [mkNode, List.get?_map, Option.map_map]
    rfl
  · intro i
    simp only [mkNode, List.get?_map, Option.map_map]
    rfl

/-- Claim C9: the ambient scope-stack state (whatever sequence of pushes,
pops and resets produced it) influences only the node's diagnostic
metadata.  Two nodes built from identical inputs under arbitrary scope
states `s1` and `s2` have equal `node_hash()`, equal `hash()`, equal shape,
operation, operand lists and output count — so scopes never affect equality
or deduplication — while the scope path itself is recorded in
`metadata().scope`. -/
theorem scopes_only_affect_metadata (env : Nat → HashT) (op : OpKind)
    (ops : List Value) (shape : Shape) (numOutputs seed : Nat)
    (frames s1 s2 : List String) :
    (mkNode env op ops shape numOutputs seed s1 frames).node_hash_
      = (mkNode env op ops shape numOutputs seed s2 frames).node_hash_
    ∧ (mkNode env op ops shape numOutputs seed s1 frames).hash_
      = (mkNode env op ops shape numOutputs seed s2 frames).hash_
    ∧ (mkNode env op ops shape numOutputs seed s1 frames).shape_
      = (mkNode env op ops shape numOutputs seed s2 frames).shape_
    ∧ (mkNode env op ops shape numOutputs seed s1 frames).op_
      = (mkNode env op ops shape numOutputs seed s2 frames).op_
    ∧ (mkNode env op ops shape numOutputs seed s1 frames).operands_as_outputs_
      = (mkNode env op ops shape numOutputs seed s2 frames).operands_as_outputs_
    ∧ (mkNode env op ops shape numOutputs seed s1 frames).num_outputs_
      = (mkNode env op ops shape numOutputs seed s2 frames).num_outputs_
    ∧ (mkNode env op ops shape numOutputs seed s1 frames).metadata_.scope
      = currentScope s1 :=
  ⟨rfl, rfl, rfl, rfl, rfl, rfl, rfl⟩

/-- Claim C1: a node's cumulative hash is the order-sensitive combination of
its own hash `GetOpHash(op, shape, seed)` with the cumulative hashes of its
operands' producing nodes, in operand order.  Consequently the cumulative
hash determines the operand-hash sequence (order and arity included):
swapping two operands whose producers hash differently changes the node's
hash, and listing the same operand twice hashes differently from listing it
once. -/
theorem cumulative_hash_order_sensitive (env : Nat → HashT) (op : OpKind)
    (shape : Shape) (numOutputs seed : Nat) (scopes frames : List String) :
    (∀ ops, (mkNode env op ops shape numOutputs seed scopes frames).hash_
        = HashT.cumul (getOpHash op shape seed) (ops.map (valueHash env)))
    ∧ (∀ l1 l2, (mkNode env op l1 shape numOutputs seed scopes frames).hash_
          = (mkNode env op l2 shape numOutputs seed scopes frames).hash_
        → l1.map (valueHash env) = l2.map (valueHash env))
    ∧ (∀ v1 v2 rest, valueHash env v1 ≠ valueHash env v2
        → (mkNode env op (v1 :: v2 :: rest) shape numOutputs seed scopes frames).hash_
          ≠ (mkNode env op (v2 :: v1 :: rest) shape numOutputs seed scopes frames).hash_)
    ∧ ∀ v, (mkNode env op [v] shape numOutputs seed scopes frames).hash_
        ≠ (mkNode env op [v, v] shape numOutputs seed scopes frames).hash_ := by
  have hinj : ∀ l1 l2 : List Value,
      (mkNode env op l1 shape numOutputs seed scopes frames).hash_
        = (mkNode env op l2 shape numOutputs seed scopes frames).hash_
      → l1.map (valueHash env) = l2.map (valueHash env) := by
    intro l1 l2 h
    simpa [mkNode, HashT.cumul.injEq] using h
  refine ⟨fun ops => rfl, hinj, ?_, ?_⟩
  · intro v1 v2 rest hne heq
    have h := hinj _ _ heq
    simp only [List.map_cons, List.cons.injEq] at h
    exact hne h.1
  · intro v heq
    have h := hinj _ _ heq
    have := congrArg List.length h
    simp at this

theorem cumulative_hash_order_sensitive_witness :
    (mkNode (fun a => HashT.ownH a 0 (.tuple [])) ⟨4⟩ [⟨some 1, 0⟩, ⟨some 2, 0⟩]
        (.arr 0 []) 1 0 [] []).hash_
      ≠ (mkNode (fun a => HashT.ownH a 0 (.tuple [])) ⟨4⟩ [⟨some 2, 0⟩, ⟨some 1, 0⟩]
        (.arr 0 []) 1 0 [] []).hash_
    ∧ (mkNode (fun a => HashT.ownH a 0 (.tuple [])) ⟨4⟩ [⟨some 1, 0⟩]
        (.arr 0 []) 1 0 [] []).hash_
      ≠ (mkNode (fun a => HashT.ownH a 0 (.tuple [])) ⟨4⟩ [⟨some 1, 0⟩, ⟨some 1, 0⟩]
        (.arr 0 []) 1 0 [] []).hash_ :=
  ⟨(cumulative_hash_order_sensitive (fun a => HashT.ownH a 0 (.tuple [])) ⟨4⟩
      (.arr 0 []) 1 0 [] []).2.2.1 ⟨some 1, 0⟩ ⟨some 2, 0⟩ []
      (by simp [valueHash]),
   (cumulative_hash_order_sensitive (fun a => HashT.ownH a 0 (.tuple [])) ⟨4⟩
      (.arr 0 []) 1 0 [] []).2.2.2 ⟨some 1, 0⟩⟩

/-- Claim C4: `shape(output_index)` fails with an out-of-range condition
(modelled as `none`) whenever `output_index ≥ num_outputs()` — in
particular `shape(2)` on a single-output node fails instead of returning
`shape(0)` — and on a well-formed multi-output node (full shape a tuple with
one non-tuple component per output) a valid index returns exactly the
`output_index`-th component of the tuple returned by `shape()`, a non-tuple
shape. -/
theorem shape_index_bounds (n : NodeRec) (i j : Nat) (comps : List Shape) :
    (n.num_outputs_ ≤ j → n.shapeAt j = none)
    ∧ (NodeRec.shape n = Shape.tuple comps → comps.length = n.num_outputs_ →
        (∀ c ∈ comps, c.isTuple = false) → i < n.num_outputs_ →
        ∃ c, n.shapeAt i = some c ∧ comps.get? i = some c ∧ c.isTuple = false) := by
  constructor
  · intro hj
    simp [NodeRec.shapeAt, hj]
  · intro hshape hlen hcomps hi
    have hfull : n.shape_ = Shape.tuple comps := hshape
    have hlt : ¬ n.num_outputs_ ≤ i := Nat.not_le_of_lt hi
    have hi' : i < comps.length := hlen ▸ hi
    refine ⟨comps.get ⟨i, hi'⟩, ?_, List.get?_eq_get hi', hcomps _ (comps.get_mem _ _)⟩
    simp [NodeRec.shapeAt, hlt, hfull, List.get?_eq_get hi']

theorem shape_index_bounds_witness :
    (mkNode (fun a => HashT.ownH a 0 (.tuple [])) ⟨9⟩ [] (.arr 0 [4]) 1 0 [] []).shapeAt 2
      = none
    ∧ (mkNode (fun a => HashT.ownH a 0 (.tuple [])) ⟨9⟩ []
        (.tuple [.arr 0 [2], .arr 0 [3]]) 2 0 [] []).shapeAt 2 = none
    ∧ (mkNode (fun a => HashT.ownH a 0 (.tuple [])) ⟨9⟩ []
        (.tuple [.arr 0 [2], .arr 0 [3]]) 2 0 [] []).shapeAt 1
      = some (.arr 0 [3])
    ∧ Shape.isTuple (.arr 0 [3]) = false := by
  refine ⟨?_, ?_, ?_, rfl⟩
  · exact (shape_index_bounds
      (mkNode (fun a => HashT.ownH a 0 (.tuple [])) ⟨9⟩ [] (.arr 0 [4]) 1 0 [] [])
      0 2 []).1 (by decide)
  · exact (shape_index_bounds
      (mkNode (fun a => HashT.ownH a 0 (.tuple []))
        ⟨9⟩ [] (.tuple [.arr 0 [2], .arr 0 [3]]) 2 0 [] [])
      0 2 []).1 (by decide)
  · obtain ⟨c, h1, h2, _⟩ := (shape_index_bounds
      (mkNode (fun a => HashT.ownH a 0 (.tuple []))
        ⟨9⟩ [] (.tuple [.arr 0 [2], .arr 0 [3]]) 2 0 [] [])
      1 0 [.arr 0 [2], .arr 0 [3]]).2 (by rfl) (by rfl)
      (by simp [Shape.isTuple]) (by decide)
    have hc : c = Shape.arr 0 [3] := by
      simp only [List.get?] at h2
      exact (Option.some.injEq _ _ ▸ h2).symm
    exact hc ▸ h1

/-- Helper: forcing a `LazyShape` whose memo cell is already filled changes
nothing and returns the memoized shape. -/
theorem LazyShape.forceN_cached (k : Nat) (c : LazyShape) (s : Shape)
    (h : c.cache = some s) : LazyShape.forceN k c = c := by
  induction k with
  | zero => rfl
  | succ m ih =>
    simp only [LazyShape.forceN, LazyShape.force, h]
    exact ih

/-- Helper: one or more shape requests starting from a fresh deferred node
leave the cell holding `fn ()` with exactly one invocation recorded. -/
theorem LazyShape.forceN_init (k : Nat) (fn : Unit → Shape) :
    LazyShape.forceN (k + 1) (LazyShape.init fn) = ⟨fn, some (fn ()), 1⟩ := by
  have h1 : LazyShape.forceN (k + 1) (LazyShape.init fn)
      = LazyShape.forceN k ⟨fn, some (fn ()), 1⟩ := rfl
  rw [h1, LazyShape.forceN_cached k _ (fn ()) rfl]

/-- Claim C5: the deferred shape function supplied to the deferred-shape
constructor is invoked at most once per node across any number of repeated
shape requests (`shape()` calls and hash computations both go through
`LazyShape.force`); after the first request the result `fn ()` is memoized,
every request returns it, and the stored shape is immutable thereafter (a
filled memo cell is never overwritten and triggers no further
invocations). -/
theorem deferred_shape_invoked_at_most_once (fn : Unit → Shape) (k : Nat)
    (c : LazyShape) (s : Shape) :
    ((LazyShape.forceN k (LazyShape.init fn)).calls ≤ 1)
    ∧ (1 ≤ k → (LazyShape.forceN k (LazyShape.init fn)).cache = some (fn ())
        ∧ (LazyShape.forceN k (LazyShape.init fn)).calls = 1)
    ∧ ((LazyShape.force (LazyShape.forceN k (LazyShape.init fn))).1 = fn ())
    ∧ (c.cache = some s → (LazyShape.forceN k c).cache = some s
        ∧ (LazyShape.forceN k c).calls = c.calls) := by
  refine ⟨?_, ?_, ?_, ?_⟩
  · cases k with
    | zero => exact Nat.zero_le 1
    | succ m => rw [LazyShape.forceN_init]
  · intro hk
    cases k with
    | zero => exact absurd hk (by decide)
    | succ m => rw [LazyShape.forceN_init]; exact ⟨rfl, rfl⟩
  · cases k with
    | zero => rfl
    | succ m => rw [LazyShape.forceN_init]; rfl
  · intro h
    rw [LazyShape.forceN_cached k c s h]
    exact ⟨h, rfl⟩

theorem deferred_shape_invoked_at_most_once_witness :
    (LazyShape.forceN 3 (LazyShape.init (fun _ => .arr 0 [2]))).calls = 1
    ∧ (LazyShape.forceN 3 (LazyShape.init (fun _ => .arr 0 [2]))).cache
        = some (.arr 0 [2])
    ∧ (LazyShape.force (LazyShape.forceN 3 (LazyShape.init (fun _ => .arr 0 [2])))).1
        = .arr 0 [2]
    ∧ (LazyShape.forceN 3 (LazyShape.mk (fun _ => .arr 0 [2]) (some (.arr 0 [5])) 1)).cache
        = some (.arr 0 [5]) := by
  have h := deferred_shape_invoked_at_most_once (fun _ => Shape.arr 0 [2]) 3
    (LazyShape.mk (fun _ => Shape.arr 0 [2]) (some (Shape.arr 0 [5])) 1) (Shape.arr 0 [5])
  exact ⟨(h.2.1 (by decide)).2, (h.2.1 (by decide)).1, h.2.2.1, (h.2.2.2 (by rfl)).1⟩

end SwiftXla
